import Mathlib

/-!
Verification model of the blugnu/http repository: an HTTP client decorator
(retry handling, accept-status policy, body materialization, directive
headers) plus its mock transport with expectation matching.

Go values are embedded shallowly: `http.Header` (a `map[string][]string`)
becomes an association list, machine integers become `Nat`/`Int` with
explicit wraparound where Go converts, fallible operations return
`Except`/`Option`, and `panic` is modelled as the error branch of an
`Except`.
-/

namespace BlugnuHttp

/-- Model of Go `http.Header` (`map[string][]string`): an association list
from header key to the list of values.  Go map iteration order is
unspecified; the list order is a deterministic refinement used only where
the code iterates a header map to print a report. -/
abbrev Headers := List (String × List String)

/-- Map lookup `h[k]`: the value of the first entry with key `k`. -/
def hGet (h : Headers) (k : String) : Option (List String) :=
  (h.find? (fun p => p.1 == k)).map (fun p => p.2)

/-- Map update `h[k] = v`: replace the entry for `k` in place, or append.
(Keys are unique in any header map the Go code builds.) -/
def hSet : Headers → String → List String → Headers
  | [], k, v => [(k, v)]
  | p :: t, k, v => if p.1 = k then (k, v) :: t else p :: hSet t k v

/-- Map deletion `delete(h, k)`: remove every entry with key `k`. -/
def hDel (h : Headers) (k : String) : Headers :=
  h.filter (fun p => p.1 != k)

/-- Model of an HTTP message body (`io.ReadCloser`): the canonical
`http.NoBody` sentinel, a readable stream yielding exactly `data`, or a
reader whose read fails with a given message. -/
inductive Body where
  | noBody : Body
  | bytes (data : List Nat) : Body
  | failing (msg : String) : Body
deriving DecidableEq, Repr

/-- Model of `io.ReadAll` applied to a `Body`. -/
def readAll : Body → Except String (List Nat)
  | .noBody => .ok []
  | .bytes d => .ok d
  | .failing msg => .error msg

/-- Model of `*http.Request`: the fields the library reads or writes. -/
structure Request where
  method : String
  url : String
  headers : Headers
  body : Body
deriving DecidableEq, Repr

/-- Model of `*http.Response`: the fields the library reads or writes.
`contentLength` is Go's `ContentLength int64`; `status` is the textual
`Status` line used in the unexpected-status error message. -/
structure Response where
  statusCode : Int
  status : String
  contentLength : Int
  headers : Headers
  body : Body
deriving DecidableEq, Repr

/-- The sentinel error values declared with `errors.New` in `errors.go`
(package http) — identity-compared by `errors.Is`. -/
inductive Sentinel where
  | initialisingClient
  | initialisingRequest
  | invalidJSON
  | invalidRequestHeader
  | invalidURL
  | maxRetriesExceeded
  | noResponseBody
  | readingResponseBody
  | unexpectedStatusCode
  | cannotChangeExpectations
  | unexpectedRequest
deriving DecidableEq, Repr

/-- Model of a Go `error` value as the library builds them.
`wrap msg ws` models `fmt.Errorf`/`errorcontext.Errorf`/`errorcontext.Wrap`
with format text `msg` and the errors bound to `%w` verbs collected in
`ws` (the external blugnu/errorcontext dependency, like `fmt.Errorf`,
preserves `errors.Is` through every wrapped argument).  `join` models
`errors.Join` of the non-nil arguments; `mockExpectations` models the
`MockExpectationsError` struct. -/
inductive GoError where
  | sentinel (s : Sentinel)
  | str (msg : String)
  | wrap (msg : String) (wrapped : List GoError)
  | join (errs : List GoError)
  | mockExpectations (name : String) (errs : List GoError)

/-- `ErrWraps e t`: `errors.Is(e, t)` succeeds — `t` is reachable from `e`
through the unwrap chain of `%w`-wrapped and joined errors. -/
inductive ErrWraps : GoError → GoError → Prop where
  | refl (e : GoError) : ErrWraps e e
  | wrapStep (msg : String) (ws : List GoError) (x t : GoError) :
      x ∈ ws → ErrWraps x t → ErrWraps (.wrap msg ws) t
  | joinStep (es : List GoError) (x t : GoError) :
      x ∈ es → ErrWraps x t → ErrWraps (.join es) t

/-- Model of `errors.Join(errs...)`: `nil` arguments are skipped and the
result is `nil` when every argument was `nil`. -/
def joinErrors (es : List (Option GoError)) : Option GoError :=
  match es.filterMap id with
  | [] => none
  | l => some (.join l)

/-- Go's `uint(i)` conversion from `int`: two's-complement wraparound
into `[0, 2^64)`. -/
def uintOfInt (i : Int) : Nat := (i % (2 ^ 64 : Int)).toNat

/-- Accumulate a decimal digit run; fails at the first non-digit. -/
def parseNatDigits : List Char → Nat → Option Nat
  | [], n => some n
  | c :: cs, n =>
    if c.isDigit then parseNatDigits cs (n * 10 + (c.toNat - 48)) else none

/-- Model of `strconv.Atoi`: optional sign, one or more decimal digits,
value restricted to the `int64` range. -/
def atoi (s : String) : Except GoError Int :=
  let core : List Char → Bool → Except GoError Int := fun cs neg =>
    match cs with
    | [] => .error (.str ("strconv.Atoi: parsing " ++ s ++ ": invalid syntax"))
    | _ :: _ =>
      match parseNatDigits cs 0 with
      | none => .error (.str ("strconv.Atoi: parsing " ++ s ++ ": invalid syntax"))
      | some n =>
        let v : Int := if neg then -(n : Int) else (n : Int)
        if -(2 ^ 63 : Int) ≤ v ∧ v ≤ 2 ^ 63 - 1 then .ok v
        else .error (.str ("strconv.Atoi: parsing " ++ s ++ ": value out of range"))
  match s.data with
  | '-' :: cs => core cs true
  | '+' :: cs => core cs false
  | cs => core cs false

/-- JSON insignificant whitespace. -/
def isWs (c : Char) : Bool := c == ' ' || c == '\t' || c == '\n' || c == '\r'

/-- Strip leading and trailing JSON whitespace. -/
def trimWs (l : List Char) : List Char :=
  ((l.dropWhile isWs).reverse.dropWhile isWs).reverse

/-- Split a character list on commas (flat: adequate for integer arrays). -/
def splitOnComma : List Char → List (List Char)
  | [] => [[]]
  | c :: cs =>
    let r := splitOnComma cs
    if c == ',' then [] :: r
    else
      match r with
      | [] => [[c]]
      | g :: gs => (c :: g) :: gs

/-- Parse one JSON integer token (optional minus, decimal digits). -/
def jsonIntToken (l : List Char) : Option Int :=
  match trimWs l with
  | '-' :: ds =>
    match ds with
    | [] => none
    | _ :: _ => (parseNatDigits ds 0).map (fun n => -(n : Int))
  | ds =>
    match ds with
    | [] => none
    | _ :: _ => (parseNatDigits ds 0).map (fun n => (n : Int))

/-- Model of `json.Unmarshal` into `[]int`, restricted to the flat
integer-array grammar the library itself produces and consumes. -/
def decodeIntList (s : String) : Except GoError (List Int) :=
  match trimWs s.data with
  | '[' :: rest =>
    if rest.getLast? = some ']' then
      let inner := rest.dropLast
      if trimWs inner = [] then .ok []
      else
        match (splitOnComma inner).mapM jsonIntToken with
        | some l => .ok l
        | none => .error (.str "json: cannot unmarshal value into []int")
    else .error (.str "json: unexpected end of JSON input")
  | _ => .error (.str "json: cannot unmarshal value into []int")

/-- Model of `json.Marshal` of an `[]int` value. -/
def encodeIntList (l : List Int) : String :=
  "[" ++ String.intercalate "," (l.map toString) ++ "]"

/-- Model of `json.Unmarshal` into `[]uint`: integer elements must also
fit in `uint`. -/
def decodeUintList (s : String) : Except GoError (List Nat) :=
  match decodeIntList s with
  | .error e => .error e
  | .ok l =>
    if l.all (fun i => decide (0 ≤ i ∧ i < 2 ^ 64)) then .ok (l.map Int.toNat)
    else .error (.str "json: cannot unmarshal number into []uint")

/-- Reserved directive header keys (package request). -/
def MaxRetriesHeader : String := "X-Blugnu-Http-Max-Retries"

/-- Reserved directive header key for acceptable status codes. -/
def AcceptStatusHeader : String := "X-Blugnu-Http-Accept-Status"

/-- Reserved directive header key for the response-body-required flag. -/
def ResponseBodyRequiredHeader : String := "X-Blugnu-Http-Response-Body-Required"

/-- Reserved directive header key for the stream-response flag. -/
def StreamResponseHeader : String := "X-Blugnu-Http-Stream-Response"

/-- The four reserved directive header keys stripped by the client. -/
def reservedHeaders : List String :=
  [MaxRetriesHeader, AcceptStatusHeader, ResponseBodyRequiredHeader, StreamResponseHeader]

/-- Replace a header on a request (`rq.Header[k] = v`). -/
def setHeader (rq : Request) (k : String) (v : List String) : Request :=
  { rq with headers := hSet rq.headers k v }

/-- The `client` struct of `barrel.go`: diagnostics name, base url and the
default maximum retry count (`maxRetries uint`).  The wrapped transport is
passed separately as a function. -/
structure ClientS where
  name : String
  url : String
  maxRetries : Nat
deriving DecidableEq, Repr

/-- The wrapped `ClientInterface.Do`: given the submitted request and the
zero-based attempt number (modelling transport state across retries),
either a response or an error. -/
abbrev Transport := Request → Nat → Except GoError Response

/-- Model of the `request.AcceptStatus(statusCodes...)` request option:
start from `{200}`, replace that with the decoded value of any existing
accept-status header, append the new codes, and store the re-marshalled
list back on the header.  (Go indexes `h[0]` and would panic on an empty
value slice, a state unreachable through the library; an empty slice is
treated like an absent header here.) -/
def AcceptStatus (statusCodes : List Int) (rq : Request) : Except GoError Request :=
  match hGet rq.headers AcceptStatusHeader with
  | some (s :: _) =>
    match decodeIntList s with
    | .error e =>
      .error (.wrap "request.AcceptStatus" [.wrap "" [.sentinel .invalidJSON, e]])
    | .ok l =>
      .ok (setHeader rq AcceptStatusHeader [encodeIntList (l ++ statusCodes)])
  | _ => .ok (setHeader rq AcceptStatusHeader [encodeIntList ([200] ++ statusCodes)])

/-- Model of the `request.MaxRetries(n)` request option. -/
def MaxRetriesOption (n : Nat) (rq : Request) : Except GoError Request :=
  .ok (setHeader rq MaxRetriesHeader [toString n])

/-- Model of the `request.ResponseBodyRequired()` request option. -/
def ResponseBodyRequiredOption (rq : Request) : Except GoError Request :=
  .ok (setHeader rq ResponseBodyRequiredHeader ["true"])

/-- Model of the `request.StreamResponse()` request option. -/
def StreamResponseOption (rq : Request) : Request :=
  setHeader rq StreamResponseHeader ["true"]

/-- The inner `parse` helper of `client.parseRequestHeaders`: look the
header up, apply `fn` to its first value, wrap any failure in
`ErrInvalidRequestHeader`, and delete the header unconditionally (the
Go code defers the delete, so it runs on the error path too).  Returns
(error, parsed value, updated request).  (Go indexes `s[0]` and would
panic on an empty value slice, a state unreachable through the library;
an empty slice is treated like an absent header here.) -/
def parseHeader {α : Type} (rq : Request) (hdr : String)
    (fn : String → Except GoError α) : Option GoError × Option α × Request :=
  match hGet rq.headers hdr with
  | some (s :: _) =>
    match fn s with
    | .error e =>
      (some (.wrap hdr [.sentinel .invalidRequestHeader, e]), none,
        { rq with headers := hDel rq.headers hdr })
    | .ok v => (none, some v, { rq with headers := hDel rq.headers hdr })
  | _ => (none, none, { rq with headers := hDel rq.headers hdr })

/-- The execution directives extracted by `client.parseRequestHeaders`. -/
structure Directives where
  maxRetries : Nat
  acceptableStatusCodes : List Nat
  responseBodyRequired : Bool
  streamResponse : Bool
deriving DecidableEq, Repr

/-- The max-retries directive value: `strconv.Atoi` then Go's `uint(i)`
conversion. -/
def parseMaxRetriesValue (s : String) : Except GoError Nat :=
  (atoi s).map uintOfInt

/-- The accept-status directive value: `json.Unmarshal` into `[]uint`,
failing with `ErrInvalidJSON` wrapping the json error. -/
def parseAcceptValue (s : String) : Except GoError (List Nat) :=
  match decodeUintList s with
  | .error e => .error (.wrap "" [.sentinel .invalidJSON, e])
  | .ok l => .ok l

/-- A boolean directive value: literal comparison with "true". -/
def parseBoolValue (s : String) : Except GoError Bool :=
  .ok (s == "true")

/-- First `parse` call of `client.parseRequestHeaders` (max-retries). -/
def prhStep1 (rq : Request) : Option GoError × Option Nat × Request :=
  parseHeader rq MaxRetriesHeader parseMaxRetriesValue

/-- Second `parse` call (accept-status), on the request left by step 1. -/
def prhStep2 (rq : Request) : Option GoError × Option (List Nat) × Request :=
  parseHeader (prhStep1 rq).2.2 AcceptStatusHeader parseAcceptValue

/-- Third `parse` call (response-body-required), on the request left by
step 2. -/
def prhStep3 (rq : Request) : Option GoError × Option Bool × Request :=
  parseHeader (prhStep2 rq).2.2 ResponseBodyRequiredHeader parseBoolValue

/-- Fourth `parse` call (stream-response), on the request left by step 3. -/
def prhStep4 (rq : Request) : Option GoError × Option Bool × Request :=
  parseHeader (prhStep3 rq).2.2 StreamResponseHeader parseBoolValue

/-- Model of `client.parseRequestHeaders`: parse the four reserved
directive headers in order, deleting each header regardless of parse
outcome, with defaults from the client.  Errors are combined with
`errors.Join`. -/
def parseRequestHeaders (c : ClientS) (rq : Request) :
    (Directives × Option GoError) × Request :=
  (({ maxRetries := (prhStep1 rq).2.1.getD c.maxRetries,
      acceptableStatusCodes := (prhStep2 rq).2.1.getD [200],
      responseBodyRequired := (prhStep3 rq).2.1.getD false,
      streamResponse := (prhStep4 rq).2.1.getD false },
    joinErrors [(prhStep1 rq).1, (prhStep2 rq).1, (prhStep3 rq).1, (prhStep4 rq).1]),
   (prhStep4 rq).2.2)

/-- Outcome of the retry loop `client.do`: a response with an acceptable
status, or a failure carrying an optional response and an error. -/
inductive DoOutcome where
  | success (r : Response)
  | failure (r : Option Response) (e : GoError)

/-- The retry loop of `client.do`: submit; on transport error return it
directly when `retries == 0`, return `ErrMaxRetriesExceeded` wrapping the
last error when the remaining budget `n` is exhausted, otherwise decrement
and resubmit; on success return the response when its status code (as
`uint`) is acceptable, else an `ErrUnexpectedStatusCode` error carrying
the response.  `k` is the attempt number; the returned list records the
request as submitted on each attempt. -/
def doAux (t : Transport) (rq : Request) (retries : Nat) (accept : List Nat) :
    Nat → Nat → DoOutcome × List Request
  | n, k =>
    match t rq k with
    | .error e =>
      if retries = 0 then (.failure none e, [rq])
      else
        match n with
        | 0 => (.failure none (.wrap "" [.sentinel .maxRetriesExceeded, e]), [rq])
        | Nat.succ m =>
          let rest := doAux t rq retries accept m (k + 1)
          (rest.1, rq :: rest.2)
    | .ok r =>
      if accept.contains (uintOfInt r.statusCode) then (.success r, [rq])
      else (.failure (some r) (.wrap r.status [.sentinel .unexpectedStatusCode]), [rq])

/-- The `handle` closure of `client.Do`: contextualize an error with the
client name and the request method and url. -/
def handleErr (c : ClientS) (rq : Request) (e : GoError) : GoError :=
  .wrap (c.name ++ ": " ++ rq.method ++ " " ++ rq.url) [e]

/-- Model of `client.Do`: parse and strip the directive headers (aborting
on a parse error), run the retry loop, pass a streamed response through
unmodified, otherwise materialize the body: zero the content length and
install `http.NoBody`, then fail on a read error, fail with
`ErrNoResponseBody` when the body is empty but required, return as-is
when empty, or install the materialized bytes with the matching content
length.  Returns ((response, error), final request, submission log). -/
def clientDo (c : ClientS) (t : Transport) (rq : Request) :
    (Option Response × Option GoError) × Request × List Request :=
  let parsed := parseRequestHeaders c rq
  let dirs := parsed.1.1
  let rq' := parsed.2
  match parsed.1.2 with
  | some e => ((none, some (handleErr c rq' e)), rq', [])
  | none =>
    match doAux t rq' dirs.maxRetries dirs.acceptableStatusCodes dirs.maxRetries 0 with
    | (.failure r e, log) => ((r, some (handleErr c rq' e)), rq', log)
    | (.success r, log) =>
      if dirs.streamResponse = true then ((some r, none), rq', log)
      else
        match readAll r.body with
        | .error msg =>
          ((some { r with contentLength := 0, body := .noBody },
            some (handleErr c rq' (.wrap "response.Body" [.str msg]))), rq', log)
        | .ok data =>
          if data.length = 0 ∧ dirs.responseBodyRequired = true then
            ((some { r with contentLength := 0, body := .noBody },
              some (handleErr c rq' (.sentinel .noResponseBody))), rq', log)
          else if data.length = 0 then
            ((some { r with contentLength := 0, body := .noBody }, none), rq', log)
          else
            ((some { r with contentLength := (data.length : Int), body := .bytes data },
              none), rq', log)

/-- The `mockResponse` struct: configured body, headers (a
`map[string]string`, modelled as an association list), optional status
code, and an error to return. -/
structure MockResponseM where
  body : List Nat
  headers : List (String × String)
  statusCode : Option Int
  err : Option GoError

/-- The `MockRequest` struct: an ordinally-indexed expectation.
`headers` models `map[string]*string` (a `none` value means the header
need only be present); `actual` records the request that consumed this
expectation. -/
structure MockRequestM where
  index : Nat
  method : Option String
  body : Option (List Nat)
  url : String
  headers : List (String × Option String)
  actual : Option Request
  isExpected : Bool
  response : Option MockResponseM

instance : Inhabited MockRequestM :=
  ⟨{ index := 0, method := none, body := none, url := "", headers := [],
     actual := none, isExpected := false, response := none }⟩

/-- The sentinel `noExpectedRequests = -1` used for the cursor. -/
def noExpectedRequests : Int := -1

/-- The `mockClient` struct: name, hostname, ordered expectations, the
unexpected-request log, and the cursor `next` (with `-1` meaning no
expectations were configured). -/
structure MockM where
  name : String
  hostname : String
  expectations : List MockRequestM
  unexpected : List Request
  next : Int

/-- Model of `mockClient.defaultResponse`: synthesize the configured
response — status code (200 when unset), headers, body — returning the
configured error alongside it; an absent configuration or an empty
configured body yields the `http.NoBody` sentinel.  (The injectable
`writeBody` failure seam is a test hook and always succeeds in the real
code, so it is not modelled.) -/
def defaultResponse (expected : MockRequestM) : Option Response × Option GoError :=
  match expected.response with
  | none =>
    (some { statusCode := 200, status := "200 OK", contentLength := -1,
            headers := [], body := .noBody }, none)
  | some resp =>
    let sc := resp.statusCode.getD 200
    (some { statusCode := sc, status := toString sc,
            contentLength := -1,
            headers := resp.headers.map (fun p => (p.1, [p.2])),
            body := if resp.body.isEmpty then .noBody else .bytes resp.body },
      resp.err)

/-- Model of `mockClient.Do`: when the cursor is not the no-expectations
sentinel and has not passed the end of the expectation list, attach the
request to the expectation at the cursor and advance the cursor; if that
expectation is marked expected, synthesize its response; in every other
case (including a consumed not-expected slot) append the request to the
unexpected list and return `ErrUnexpectedRequest` with no response.
Returns ((response, error), updated mock). -/
def mockDo (m : MockM) (rq : Request) : (Option Response × Option GoError) × MockM :=
  if m.next ≠ noExpectedRequests ∧ m.next < (m.expectations.length : Int) then
    let expected := { m.expectations.getD m.next.toNat default with actual := some rq }
    let m' := { m with expectations := m.expectations.set m.next.toNat expected,
                       next := m.next + 1 }
    if expected.isExpected then
      (defaultResponse expected, m')
    else
      ((none, some (.sentinel .unexpectedRequest)),
        { m' with unexpected := m'.unexpected ++ [rq] })
  else
    ((none, some (.sentinel .unexpectedRequest)),
      { m with unexpected := m.unexpected ++ [rq] })

/-- Model of `url.JoinPath(base, path)` for the well-formed absolute base
urls the mock uses (joining never fails for them; `url.JoinPath` errors
only when the base does not parse, which the `Expect` model surfaces as
the panic value for an invalid base is out of scope here). -/
def joinPathModel (base path : String) : String :=
  if path.startsWith "/" then base ++ path else base ++ "/" ++ path

/-- Model of `mockClient.Expect`: panics (the `.error` branch) wrapping
`ErrCannotChangeExpectations` when `mock.next > 0`; otherwise appends a
fresh expectation whose url joins the mock hostname with the path, and
sets the cursor to 0 when this is the first expectation. -/
def mockExpect (m : MockM) (method path : String) :
    Except GoError (MockM × MockRequestM) :=
  if m.next > 0 then
    .error (.wrap (m.name ++ ": requests have already been made")
      [.sentinel .cannotChangeExpectations])
  else
    let fqu := joinPathModel m.hostname path
    let rq : MockRequestM :=
      { index := m.expectations.length, method := some method, body := none,
        url := fqu, headers := [], actual := none, isExpected := true,
        response := none }
    let exps := m.expectations ++ [rq]
    .ok ({ m with expectations := exps,
                  next := if exps.length = 1 then 0 else m.next }, rq)

/-- Model of `mockClient.ExpectGet`. -/
def mockExpectGet (m : MockM) (path : String) : Except GoError (MockM × MockRequestM) :=
  mockExpect m "GET" path

/-- Model of `mockClient.ExpectPost`. -/
def mockExpectPost (m : MockM) (path : String) : Except GoError (MockM × MockRequestM) :=
  mockExpect m "POST" path

/-- Model of `mockClient.Reset`. -/
def mockReset (m : MockM) : MockM :=
  { m with expectations := [], unexpected := [], next := noExpectedRequests }

/-- Render a byte slice the way `fmt.Sprintf("%s", b)` would (bytes as
characters). -/
def bytesRender (b : List Nat) : String :=
  String.mk (b.map Char.ofNat)

/-- `bytes.Split(b, []byte("\n"))`. -/
def splitOnNewlineByte (b : List Nat) : List (List Nat) :=
  match b with
  | [] => [[]]
  | c :: cs =>
    let r := splitOnNewlineByte cs
    if c == 10 then [] :: r
    else
      match r with
      | [] => [[c]]
      | g :: gs => (c :: g) :: gs

/-- Model of `MockRequest.checkMethodExpectation`. -/
def checkMethodExpectation (rq : MockRequestM) (a : Request) : List String :=
  match rq.method with
  | some m =>
    if m ≠ a.method then
      ["expected method: " ++ m, "   got         : " ++ a.method]
    else []
  | none => []

/-- Model of `MockRequest.checkURLExpectation`. -/
def checkURLExpectation (rq : MockRequestM) (a : Request) : List String :=
  let u := if rq.url = "" then "<not specified>" else rq.url
  if rq.url ≠ a.url then
    ["expected url: " ++ u, "   got      : " ++ a.url]
  else []

/-- The dump of every actually-present header used in the header-check
report (first value of each key, as the Go code prints `av[0]`). -/
def dumpHeaders (h : Headers) : List String :=
  h.map (fun p => "             " ++ p.1 ++ ": " ++ p.2.headD "")

/-- Model of `MockRequest.checkHeadersExpectation`: for each expected
header key, report an absence (with a dump of the actual headers) or a
value mismatch. -/
def checkHeadersExpectation (rq : MockRequestM) (a : Request) : List String :=
  rq.headers.foldl
    (fun rpt kv =>
      let present := (hGet a.headers kv.1).isSome
      let avs := ((hGet a.headers kv.1).getD []).headD ""
      match kv.2 with
      | none =>
        if present then rpt
        else
          rpt ++ (["header not set: " ++ kv.1, "           got: ["]
            ++ dumpHeaders a.headers ++ ["           ]"])
      | some v =>
        if ¬ present then
          rpt ++ (["header not set: " ++ kv.1 ++ ": " ++ v, "           got: ["]
            ++ dumpHeaders a.headers ++ ["           ]"])
        else if avs ≠ v then
          rpt ++ ["expected header: " ++ kv.1 ++ ": " ++ v,
                  "   got         : " ++ kv.1 ++ ": " ++ avs]
        else rpt)
    []

/-- Model of `MockRequest.checkBodyExpectation`: exact byte equality,
with empty-vs-nonempty short reports and a line-by-line dump otherwise.
(`io.ReadAll`'s error is discarded by the Go code, leaving the bytes read
so far; the failing-reader model yields no bytes.) -/
def checkBodyExpectation (rq : MockRequestM) (a : Request) : List String :=
  match rq.body with
  | none => []
  | some expected =>
    let actual := match readAll a.body with | .ok d => d | .error _ => []
    if expected = actual then []
    else if expected.length = 0 then
      ["expected: <no body>", "   got  : " ++ toString actual.length ++ " bytes"]
    else if actual.length = 0 then
      ["expected: " ++ toString expected.length ++ " bytes", "   got  : <no body>"]
    else
      ["request body differs from expected", "   got   :_________"]
        ++ (splitOnNewlineByte actual).map (fun b => "         |" ++ bytesRender b)
        ++ ["   wanted:_________"]
        ++ (splitOnNewlineByte expected).map (fun b => "         |" ++ bytesRender b)

/-- Model of `MockRequest.checkExpectations`: a not-expected expectation
passes exactly when no request consumed it; an expected one fails when no
request arrived, and otherwise accumulates the method, url, header and
body reports. -/
def checkExpectations (rq : MockRequestM) : List String :=
  if rq.isExpected = false then
    match rq.actual with
    | none => []
    | some a => ["  got: " ++ a.method ++ " " ++ a.url]
  else
    match rq.actual with
    | none => ["  got: <no request>"]
    | some a =>
      checkMethodExpectation rq a ++ checkURLExpectation rq a
        ++ checkHeadersExpectation rq a ++ checkBodyExpectation rq a

/-- The `request #N: expecting: METHOD URL` headline for a failing
expectation in the `ExpectationsWereMet` report. -/
def expectingLine (rq : MockRequestM) : String :=
  "request #" ++ toString (rq.index + 1) ++ ": expecting: "
    ++ rq.method.getD "<ANY METHOD>" ++ " " ++ rq.url

/-- The per-expectation block of errors contributed to the
`ExpectationsWereMet` report. -/
def ewmExpErrs : List MockRequestM → List GoError
  | [] => []
  | rq :: rest =>
    let rpt := checkExpectations rq
    (if rpt.length > 0 then
      GoError.str (expectingLine rq) :: rpt.map (fun s => GoError.str ("   " ++ s))
     else []) ++ ewmExpErrs rest

/-- The `request #N: unexpected: METHOD URL` line for an unexpected
request. -/
def unexpectedLine (base ix : Nat) (rq : Request) : String :=
  "request #" ++ toString (base + ix + 1) ++ ": unexpected: "
    ++ rq.method ++ " " ++ rq.url

/-- The unexpected-request lines of the `ExpectationsWereMet` report,
numbered continuing after the expectations. -/
def ewmUnexpErrs (base : Nat) : Nat → List Request → List GoError
  | _, [] => []
  | ix, rq :: rest =>
    GoError.str (unexpectedLine base ix rq) :: ewmUnexpErrs base (ix + 1) rest

/-- Model of `mockClient.ExpectationsWereMet`: collect a block for every
failing expectation and a line for every unexpected request; return `nil`
when nothing failed and a single `MockExpectationsError` aggregating all
of them otherwise. -/
def expectationsWereMet (m : MockM) : Option GoError :=
  let errs := ewmExpErrs m.expectations
    ++ ewmUnexpErrs m.expectations.length 0 m.unexpected
  if errs.length > 0 then some (.mockExpectations m.name errs) else none

/-! Helper normal forms used to state lemmas about `parseRequestHeaders`. -/

/-- The error component a single `parse` call contributes, as a function
of the headers it sees. -/
def parseErrOf {α : Type} (h : Headers) (hdr : String)
    (fn : String → Except GoError α) : Option GoError :=
  match hGet h hdr with
  | some (s :: _) =>
    match fn s with
    | .error e => some (.wrap hdr [.sentinel .invalidRequestHeader, e])
    | .ok _ => none
  | _ => none

/-- The value component a single `parse` call contributes, as a function
of the headers it sees. -/
def parseValOf {α : Type} (h : Headers) (hdr : String)
    (fn : String → Except GoError α) : Option α :=
  match hGet h hdr with
  | some (s :: _) => (fn s).toOption
  | _ => none

/-- The four reserved-header deletions `parseRequestHeaders` performs. -/
def stripAll (h : Headers) : Headers :=
  hDel (hDel (hDel (hDel h MaxRetriesHeader) AcceptStatusHeader)
    ResponseBodyRequiredHeader) StreamResponseHeader

/-! Concrete inputs used by the witness theorems. -/

/-- A concrete client with no default retries. -/
def wClient : ClientS := { name := "api", url := "http://example.com", maxRetries := 0 }

/-- A transport that fails on every attempt. -/
def wFailTransport : Transport := fun _ _ => .error (.str "connection refused")

/-- The per-attempt errors produced by `wFailTransport`. -/
def wFailSeq : Nat → GoError := fun _ => .str "connection refused"

/-- A concrete 200 response with a two-byte body. -/
def wOkResponse : Response :=
  { statusCode := 200, status := "200 OK", contentLength := -1, headers := [],
    body := .bytes [104, 105] }

/-- A transport that always returns `wOkResponse`. -/
def wOkTransport : Transport := fun _ _ => .ok wOkResponse

/-- A concrete 200 response with no body. -/
def wEmptyBodyResponse : Response :=
  { statusCode := 200, status := "200 OK", contentLength := -1, headers := [],
    body := .noBody }

/-- A transport that always returns `wEmptyBodyResponse`. -/
def wEmptyTransport : Transport := fun _ _ => .ok wEmptyBodyResponse

/-- A request carrying a max-retries directive of 2. -/
def wRetryRq : Request :=
  { method := "GET", url := "http://example.com/a",
    headers := [(MaxRetriesHeader, ["2"])], body := .noBody }

/-- A request with no directive headers. -/
def wPlainRq : Request :=
  { method := "GET", url := "http://example.com/a", headers := [], body := .noBody }

/-- A request with both the stream-response and body-required directives. -/
def wStreamRq : Request :=
  { method := "GET", url := "http://example.com/a",
    headers := [(StreamResponseHeader, ["true"]), (ResponseBodyRequiredHeader, ["true"])],
    body := .noBody }

/-- A mock client with zero expectations configured. -/
def wMockEmpty : MockM :=
  { name := "mock", hostname := "mock://hostname", expectations := [],
    unexpected := [], next := -1 }

/-- A concrete request dispatched to the mock. -/
def wMockRq : Request :=
  { method := "GET", url := "mock://hostname/path", headers := [], body := .noBody }

/-- An expectation that never received a request (so it fails its check). -/
def wFailingExpectation : MockRequestM :=
  { index := 0, method := some "GET", body := none, url := "mock://hostname/x",
    headers := [], actual := none, isExpected := true, response := none }

/-- A mock with one failing expectation and one unexpected request. -/
def wMockFailing : MockM :=
  { name := "mock", hostname := "mock://hostname",
    expectations := [wFailingExpectation], unexpected := [wMockRq], next := 0 }

/-! Lemmas about the header-map operations. -/

theorem hGet_cons (p : String × List String) (t : Headers) (k : String) :
    hGet (p :: t) k = if p.1 = k then some p.2 else hGet t k := by
  by_cases h : p.1 = k
  · have hb : (p.1 == k) = true := by simp [h]
    simp [hGet, List.find?, hb, h]
  · have hb : (p.1 == k) = false := by simp [h]
    simp [hGet, List.find?, hb, h]

theorem hDel_cons (p : String × List String) (t : Headers) (k : String) :
    hDel (p :: t) k = if p.1 = k then hDel t k else p :: hDel t k := by
  by_cases h : p.1 = k
  · have hb : (p.1 != k) = false := by simp [h]
    simp [hDel, List.filter_cons, hb, h]
  · have hb : (p.1 != k) = true := by simp [h]
    simp [hDel, List.filter_cons, hb, h]

theorem hGet_hDel_self (h : Headers) (k : String) : hGet (hDel h k) k = none := by
  induction h with
  | nil => rfl
  | cons p t ih =>
    rw [hDel_cons]
    by_cases hpk : p.1 = k
    · rw [if_pos hpk]
      exact ih
    · rw [if_neg hpk, hGet_cons, if_neg hpk]
      exact ih

theorem hGet_hDel_other (h : Headers) (k k' : String) (hne : k' ≠ k) :
    hGet (hDel h k) k' = hGet h k' := by
  induction h with
  | nil => rfl
  | cons p t ih =>
    rw [hDel_cons, hGet_cons]
    by_cases hpk : p.1 = k
    · have hpk' : ¬ p.1 = k' := fun hc => hne (hc.symm.trans hpk)
      rw [if_pos hpk, if_neg hpk', ih]
    · rw [if_neg hpk, hGet_cons]
      by_cases hp' : p.1 = k'
      · rw [if_pos hp', if_pos hp']
      · rw [if_neg hp', if_neg hp', ih]

theorem hGet_hSet_self (h : Headers) (k : String) (v : List String) :
    hGet (hSet h k v) k = some v := by
  induction h with
  | nil =>
    show hGet [(k, v)] k = some v
    rw [hGet_cons, if_pos rfl]
  | cons p t ih =>
    by_cases hpk : p.1 = k
    · show hGet (if p.1 = k then (k, v) :: t else p :: hSet t k v) k = some v
      rw [if_pos hpk, hGet_cons, if_pos rfl]
    · show hGet (if p.1 = k then (k, v) :: t else p :: hSet t k v) k = some v
      rw [if_neg hpk, hGet_cons, if_neg hpk]
      exact ih

theorem hGet_hSet_other (h : Headers) (k k' : String) (v : List String)
    (hne : k' ≠ k) : hGet (hSet h k v) k' = hGet h k' := by
  induction h with
  | nil =>
    show hGet [(k, v)] k' = hGet [] k'
    rw [hGet_cons, if_neg (fun hc : (k : String) = k' => hne hc.symm)]
  | cons p t ih =>
    show hGet (if p.1 = k then (k, v) :: t else p :: hSet t k v) k'
      = hGet (p :: t) k'
    by_cases hpk : p.1 = k
    · rw [if_pos hpk, hGet_cons, hGet_cons,
        if_neg (fun hc : (k : String) = k' => hne hc.symm),
        if_neg (fun hc : p.1 = k' => hne (hpk.symm.trans hc).symm)]
    · rw [if_neg hpk, hGet_cons, hGet_cons, ih]

theorem hDel_hSet_self (h : Headers) (k : String) (v : List String) :
    hDel (hSet h k v) k = hDel h k := by
  induction h with
  | nil =>
    show hDel [(k, v)] k = hDel [] k
    rw [hDel_cons, if_pos rfl]
  | cons p t ih =>
    show hDel (if p.1 = k then (k, v) :: t else p :: hSet t k v) k
      = hDel (p :: t) k
    by_cases hpk : p.1 = k
    · rw [if_pos hpk, hDel_cons, if_pos rfl, hDel_cons, if_pos hpk]
    · rw [if_neg hpk, hDel_cons, if_neg hpk, hDel_cons, if_neg hpk, ih]

theorem hDel_comm (h : Headers) (a b : String) :
    hDel (hDel h a) b = hDel (hDel h b) a := by
  unfold hDel
  rw [List.filter_filter, List.filter_filter]
  apply List.filter_congr
  intro p _
  exact Bool.and_comm _ _

/-! Lemmas about `parseHeader` and `parseRequestHeaders`. -/

theorem parseHeader_rq {α : Type} (rq : Request) (hdr : String)
    (fn : String → Except GoError α) :
    (parseHeader rq hdr fn).2.2 = { rq with headers := hDel rq.headers hdr } := by
  unfold parseHeader
  cases hGet rq.headers hdr with
  | none => rfl
  | some l =>
    cases l with
    | nil => rfl
    | cons s rest =>
      cases hfn : fn s with
      | error e => simp [hfn]
      | ok v => simp [hfn]

theorem parseHeader_err {α : Type} (rq : Request) (hdr : String)
    (fn : String → Except GoError α) :
    (parseHeader rq hdr fn).1 = parseErrOf rq.headers hdr fn := by
  unfold parseHeader parseErrOf
  cases hGet rq.headers hdr with
  | none => rfl
  | some l =>
    cases l with
    | nil => rfl
    | cons s rest =>
      cases hfn : fn s with
      | error e => simp [hfn]
      | ok v => simp [hfn]

theorem parseHeader_val {α : Type} (rq : Request) (hdr : String)
    (fn : String → Except GoError α) :
    (parseHeader rq hdr fn).2.1 = parseValOf rq.headers hdr fn := by
  unfold parseHeader parseValOf
  cases hGet rq.headers hdr with
  | none => rfl
  | some l =>
    cases l with
    | nil => rfl
    | cons s rest =>
      cases hfn : fn s with
      | error e => simp [hfn, Except.toOption]
      | ok v => simp [hfn, Except.toOption]

theorem parseValOf_hDel {α : Type} (h : Headers) (k hdr : String)
    (fn : String → Except GoError α) (hne : hdr ≠ k) :
    parseValOf (hDel h k) hdr fn = parseValOf h hdr fn := by
  unfold parseValOf
  rw [hGet_hDel_other h k hdr hne]

theorem parseErrOf_hDel {α : Type} (h : Headers) (k hdr : String)
    (fn : String → Except GoError α) (hne : hdr ≠ k) :
    parseErrOf (hDel h k) hdr fn = parseErrOf h hdr fn := by
  unfold parseErrOf
  rw [hGet_hDel_other h k hdr hne]

/-- Normal form of `parseRequestHeaders`: each directive and error
component is a function of the original headers at its own key, and the
resulting request has all four reserved headers deleted. -/
theorem parseRequestHeaders_eq (c : ClientS) (rq : Request) :
    parseRequestHeaders c rq =
      (({ maxRetries :=
            (parseValOf rq.headers MaxRetriesHeader parseMaxRetriesValue).getD c.maxRetries,
          acceptableStatusCodes :=
            (parseValOf rq.headers AcceptStatusHeader parseAcceptValue).getD [200],
          responseBodyRequired :=
            (parseValOf rq.headers ResponseBodyRequiredHeader parseBoolValue).getD false,
          streamResponse :=
            (parseValOf rq.headers StreamResponseHeader parseBoolValue).getD false },
        joinErrors
          [parseErrOf rq.headers MaxRetriesHeader parseMaxRetriesValue,
           parseErrOf rq.headers AcceptStatusHeader parseAcceptValue,
           parseErrOf rq.headers ResponseBodyRequiredHeader parseBoolValue,
           parseErrOf rq.headers StreamResponseHeader parseBoolValue]),
       { rq with headers := stripAll rq.headers }) := by
  have h1rq : (prhStep1 rq).2.2 = { rq with headers := hDel rq.headers MaxRetriesHeader } := by
    unfold prhStep1
    rw [parseHeader_rq]
  have h2rq : (prhStep2 rq).2.2 =
      { rq with headers := hDel (hDel rq.headers MaxRetriesHeader) AcceptStatusHeader } := by
    unfold prhStep2
    rw [parseHeader_rq, h1rq]
  have h3rq : (prhStep3 rq).2.2 =
      { rq with headers := hDel (hDel (hDel rq.headers MaxRetriesHeader)
          AcceptStatusHeader) ResponseBodyRequiredHeader } := by
    unfold prhStep3
    rw [parseHeader_rq, h2rq]
  have h4rq : (prhStep4 rq).2.2 = { rq with headers := stripAll rq.headers } := by
    unfold prhStep4 stripAll
    rw [parseHeader_rq, h3rq]
  have h1v : (prhStep1 rq).2.1 = parseValOf rq.headers MaxRetriesHeader parseMaxRetriesValue := by
    unfold prhStep1
    rw [parseHeader_val]
  have h1e : (prhStep1 rq).1 = parseErrOf rq.headers MaxRetriesHeader parseMaxRetriesValue := by
    unfold prhStep1
    rw [parseHeader_err]
  have h2v : (prhStep2 rq).2.1 = parseValOf rq.headers AcceptStatusHeader parseAcceptValue := by
    unfold prhStep2
    rw [parseHeader_val, h1rq]
    exact parseValOf_hDel _ _ _ _ (by decide)
  have h2e : (prhStep2 rq).1 = parseErrOf rq.headers AcceptStatusHeader parseAcceptValue := by
    unfold prhStep2
    rw [parseHeader_err, h1rq]
    exact parseErrOf_hDel _ _ _ _ (by decide)
  have h3v : (prhStep3 rq).2.1 = parseValOf rq.headers ResponseBodyRequiredHeader parseBoolValue := by
    unfold prhStep3
    rw [parseHeader_val, h2rq]
    show parseValOf (hDel (hDel rq.headers MaxRetriesHeader) AcceptStatusHeader)
      ResponseBodyRequiredHeader parseBoolValue = _
    rw [parseValOf_hDel _ _ _ _ (by decide), parseValOf_hDel _ _ _ _ (by decide)]
  have h3e : (prhStep3 rq).1 = parseErrOf rq.headers ResponseBodyRequiredHeader parseBoolValue := by
    unfold prhStep3
    rw [parseHeader_err, h2rq]
    show parseErrOf (hDel (hDel rq.headers MaxRetriesHeader) AcceptStatusHeader)
      ResponseBodyRequiredHeader parseBoolValue = _
    rw [parseErrOf_hDel _ _ _ _ (by decide), parseErrOf_hDel _ _ _ _ (by decide)]
  have h4v : (prhStep4 rq).2.1 = parseValOf rq.headers StreamResponseHeader parseBoolValue := by
    unfold prhStep4
    rw [parseHeader_val, h3rq]
    show parseValOf (hDel (hDel (hDel rq.headers MaxRetriesHeader) AcceptStatusHeader)
      ResponseBodyRequiredHeader) StreamResponseHeader parseBoolValue = _
    rw [parseValOf_hDel _ _ _ _ (by decide), parseValOf_hDel _ _ _ _ (by decide),
      parseValOf_hDel _ _ _ _ (by decide)]
  have h4e : (prhStep4 rq).1 = parseErrOf rq.headers StreamResponseHeader parseBoolValue := by
    unfold prhStep4
    rw [parseHeader_err, h3rq]
    show parseErrOf (hDel (hDel (hDel rq.headers MaxRetriesHeader) AcceptStatusHeader)
      ResponseBodyRequiredHeader) StreamResponseHeader parseBoolValue = _
    rw [parseErrOf_hDel _ _ _ _ (by decide), parseErrOf_hDel _ _ _ _ (by decide),
      parseErrOf_hDel _ _ _ _ (by decide)]
  unfold parseRequestHeaders
  rw [h1v, h1e, h2v, h2e, h3v, h3e, h4v, h4e, h4rq]

theorem mem_reservedHeaders_iff (k : String) :
    k ∈ reservedHeaders ↔
      (k = MaxRetriesHeader ∨ k = AcceptStatusHeader ∨
       k = ResponseBodyRequiredHeader ∨ k = StreamResponseHeader) := by
  simp [reservedHeaders]

theorem hGet_stripAll_reserved (h : Headers) (k : String)
    (hk : k ∈ reservedHeaders) : hGet (stripAll h) k = none := by
  unfold stripAll
  rcases (mem_reservedHeaders_iff k).mp hk with rfl | rfl | rfl | rfl
  · rw [hGet_hDel_other _ _ _ (by decide), hGet_hDel_other _ _ _ (by decide),
      hGet_hDel_other _ _ _ (by decide), hGet_hDel_self]
  · rw [hGet_hDel_other _ _ _ (by decide), hGet_hDel_other _ _ _ (by decide),
      hGet_hDel_self]
  · rw [hGet_hDel_other _ _ _ (by decide), hGet_hDel_self]
  · rw [hGet_hDel_self]

theorem stripAll_hSet (h : Headers) (k : String) (v : List String)
    (hk : k ∈ reservedHeaders) : stripAll (hSet h k v) = stripAll h := by
  unfold stripAll
  rcases (mem_reservedHeaders_iff k).mp hk with rfl | rfl | rfl | rfl
  · rw [hDel_hSet_self]
  · rw [hDel_comm (hSet h AcceptStatusHeader v) MaxRetriesHeader AcceptStatusHeader,
      hDel_hSet_self,
      hDel_comm h AcceptStatusHeader MaxRetriesHeader]
  · rw [hDel_comm (hDel (hSet h ResponseBodyRequiredHeader v) MaxRetriesHeader)
        AcceptStatusHeader ResponseBodyRequiredHeader,
      hDel_comm (hSet h ResponseBodyRequiredHeader v) MaxRetriesHeader
        ResponseBodyRequiredHeader,
      hDel_hSet_self,
      hDel_comm h ResponseBodyRequiredHeader MaxRetriesHeader,
      hDel_comm (hDel h MaxRetriesHeader) ResponseBodyRequiredHeader
        AcceptStatusHeader]
  · rw [hDel_comm (hDel (hDel (hSet h StreamResponseHeader v) MaxRetriesHeader)
        AcceptStatusHeader) ResponseBodyRequiredHeader StreamResponseHeader,
      hDel_comm (hDel (hSet h StreamResponseHeader v) MaxRetriesHeader)
        AcceptStatusHeader StreamResponseHeader,
      hDel_comm (hSet h StreamResponseHeader v) MaxRetriesHeader
        StreamResponseHeader,
      hDel_hSet_self,
      hDel_comm h StreamResponseHeader MaxRetriesHeader,
      hDel_comm (hDel h MaxRetriesHeader) StreamResponseHeader
        AcceptStatusHeader,
      hDel_comm (hDel (hDel h MaxRetriesHeader) AcceptStatusHeader)
        StreamResponseHeader ResponseBodyRequiredHeader]

theorem parseValOf_hSet_head {α : Type} (h : Headers) (k : String)
    (v : String) (vs : List String) (fn : String → Except GoError α) :
    parseValOf (hSet h k (v :: vs)) k fn = (fn v).toOption := by
  unfold parseValOf
  rw [hGet_hSet_self]

theorem parseErrOf_hSet_head {α : Type} (h : Headers) (k : String)
    (v : String) (vs : List String) (fn : String → Except GoError α) :
    parseErrOf (hSet h k (v :: vs)) k fn =
      (match fn v with
       | .error e => some (.wrap k [.sentinel .invalidRequestHeader, e])
       | .ok _ => none) := by
  unfold parseErrOf
  rw [hGet_hSet_self]

theorem parseValOf_hSet_other {α : Type} (h : Headers) (k hdr : String)
    (v : List String) (fn : String → Except GoError α) (hne : hdr ≠ k) :
    parseValOf (hSet h k v) hdr fn = parseValOf h hdr fn := by
  unfold parseValOf
  rw [hGet_hSet_other _ _ _ _ hne]

theorem parseErrOf_hSet_other {α : Type} (h : Headers) (k hdr : String)
    (v : List String) (fn : String → Except GoError α) (hne : hdr ≠ k) :
    parseErrOf (hSet h k v) hdr fn = parseErrOf h hdr fn := by
  unfold parseErrOf
  rw [hGet_hSet_other _ _ _ _ hne]

/-! Lemmas about the retry loop `doAux`. -/

theorem doAux_all_fail (t : Transport) (es : Nat → GoError) (rq : Request)
    (retries : Nat) (accept : List Nat) (hr : retries ≠ 0)
    (hfail : ∀ r k, t r k = .error (es k)) :
    ∀ n k, doAux t rq retries accept n k =
      (.failure none (.wrap "" [.sentinel .maxRetriesExceeded, es (k + n)]),
        List.replicate (n + 1) rq) := by
  intro n
  induction n with
  | zero =>
    intro k
    unfold doAux
    rw [hfail]
    simp [hr]
  | succ m ih =>
    intro k
    unfold doAux
    rw [hfail]
    simp only [hr, if_neg, if_false]
    rw [ih (k + 1)]
    have hk : k + 1 + m = k + (m + 1) := by omega
    rw [hk]
    rfl

theorem doAux_log_mem (t : Transport) (rq : Request) (retries : Nat)
    (accept : List Nat) :
    ∀ n k x, x ∈ (doAux t rq retries accept n k).2 → x = rq := by
  intro n
  induction n with
  | zero =>
    intro k x hx
    unfold doAux at hx
    cases ht : t rq k with
    | error e =>
      rw [ht] at hx
      dsimp only [] at hx
      by_cases hr : retries = 0
      · rw [if_pos hr] at hx
        simpa using hx
      · rw [if_neg hr] at hx
        simpa using hx
    | ok r =>
      rw [ht] at hx
      dsimp only [] at hx
      by_cases hacc : accept.contains (uintOfInt r.statusCode) = true
      · rw [if_pos hacc] at hx
        simpa using hx
      · rw [if_neg hacc] at hx
        simpa using hx
  | succ m ih =>
    intro k x hx
    unfold doAux at hx
    cases ht : t rq k with
    | error e =>
      rw [ht] at hx
      dsimp only [] at hx
      by_cases hr : retries = 0
      · rw [if_pos hr] at hx
        simpa using hx
      · rw [if_neg hr] at hx
        have hx' : x ∈ rq :: (doAux t rq retries accept m (k + 1)).2 := hx
        rcases List.mem_cons.mp hx' with hx' | hx'
        · exact hx'
        · exact ih (k + 1) x hx'
    | ok r =>
      rw [ht] at hx
      dsimp only [] at hx
      by_cases hacc : accept.contains (uintOfInt r.statusCode) = true
      · rw [if_pos hacc] at hx
        simpa using hx
      · rw [if_neg hacc] at hx
        simpa using hx

theorem doAux_first_ok (t : Transport) (rq : Request) (retries : Nat)
    (accept : List Nat) (n : Nat) (r : Response)
    (ht : t rq 0 = .ok r)
    (hacc : accept.contains (uintOfInt r.statusCode) = true) :
    doAux t rq retries accept n 0 = (.success r, [rq]) := by
  unfold doAux
  rw [ht]
  have hm : uintOfInt r.statusCode ∈ accept := by
    simpa using hacc
  simp [hm]

/-! Structural lemmas about `clientDo`. -/

theorem clientDo_rq (c : ClientS) (t : Transport) (rq : Request) :
    (clientDo c t rq).2.1 = (parseRequestHeaders c rq).2 := by
  unfold clientDo
  dsimp only []
  cases hperr : (parseRequestHeaders c rq).1.2 with
  | some e => rfl
  | none =>
    rcases hda : doAux t (parseRequestHeaders c rq).2
        ((parseRequestHeaders c rq).1.1).maxRetries
        ((parseRequestHeaders c rq).1.1).acceptableStatusCodes
        ((parseRequestHeaders c rq).1.1).maxRetries 0 with ⟨o, log⟩
    cases o with
    | failure r e => rfl
    | success r =>
      dsimp only []
      by_cases hs : ((parseRequestHeaders c rq).1.1).streamResponse = true
      · rw [if_pos hs]
      · rw [if_neg hs]
        cases hra : readAll r.body with
        | error msg => rfl
        | ok data =>
          dsimp only []
          by_cases h0 : data.length = 0 ∧ ((parseRequestHeaders c rq).1.1).responseBodyRequired = true
          · rw [if_pos h0]
          · rw [if_neg h0]
            by_cases h1 : data.length = 0
            · rw [if_pos h1]
            · rw [if_neg h1]

theorem clientDo_log_mem (c : ClientS) (t : Transport) (rq : Request) :
    ∀ x ∈ (clientDo c t rq).2.2, x = (parseRequestHeaders c rq).2 := by
  intro x hx
  unfold clientDo at hx
  dsimp only [] at hx
  cases hperr : (parseRequestHeaders c rq).1.2 with
  | some e =>
    rw [hperr] at hx
    dsimp only [] at hx
    simp at hx
  | none =>
    rw [hperr] at hx
    dsimp only [] at hx
    rcases hda : doAux t (parseRequestHeaders c rq).2
        ((parseRequestHeaders c rq).1.1).maxRetries
        ((parseRequestHeaders c rq).1.1).acceptableStatusCodes
        ((parseRequestHeaders c rq).1.1).maxRetries 0 with ⟨o, log⟩
    have hlog : ∀ y ∈ log, y = (parseRequestHeaders c rq).2 := by
      intro y hy
      refine doAux_log_mem t (parseRequestHeaders c rq).2
        ((parseRequestHeaders c rq).1.1).maxRetries
        ((parseRequestHeaders c rq).1.1).acceptableStatusCodes
        ((parseRequestHeaders c rq).1.1).maxRetries 0 y ?_
      rw [hda]
      exact hy
    rw [hda] at hx
    cases o with
    | failure r e =>
      exact hlog x hx
    | success r =>
      dsimp only [] at hx
      by_cases hs : ((parseRequestHeaders c rq).1.1).streamResponse = true
      · rw [if_pos hs] at hx
        exact hlog x hx
      · rw [if_neg hs] at hx
        cases hra : readAll r.body with
        | error msg =>
          rw [hra] at hx
          dsimp only [] at hx
          exact hlog x hx
        | ok data =>
          rw [hra] at hx
          dsimp only [] at hx
          by_cases h0 : data.length = 0 ∧ ((parseRequestHeaders c rq).1.1).responseBodyRequired = true
          · rw [if_pos h0] at hx
            exact hlog x hx
          · rw [if_neg h0] at hx
            by_cases h1 : data.length = 0
            · rw [if_pos h1] at hx
              exact hlog x hx
            · rw [if_neg h1] at hx
              exact hlog x hx

/-! Lemmas about the `ExpectationsWereMet` report. -/

theorem ewmExpErrs_nil_iff (l : List MockRequestM) :
    ewmExpErrs l = [] ↔ ∀ e ∈ l, checkExpectations e = [] := by
  induction l with
  | nil => simp [ewmExpErrs]
  | cons rq rest ih =>
    unfold ewmExpErrs
    dsimp only []
    by_cases h : (checkExpectations rq).length > 0
    · have hne : checkExpectations rq ≠ [] := by
        intro hc
        rw [hc] at h
        simp at h
      rw [if_pos h]
      constructor
      · intro hc
        simp at hc
      · intro hall
        exact absurd (hall rq (List.mem_cons_self rq rest)) hne
    · have hnil : checkExpectations rq = [] := by
        cases hck : checkExpectations rq with
        | nil => rfl
        | cons a b =>
          rw [hck] at h
          simp at h
      rw [if_neg h, List.nil_append, ih]
      constructor
      · intro hall e he
        rcases List.mem_cons.mp he with rfl | he'
        · exact hnil
        · exact hall e he'
      · intro hall e he
        exact hall e (List.mem_cons_of_mem rq he)

theorem ewmUnexpErrs_nil_iff (base i : Nat) (l : List Request) :
    ewmUnexpErrs base i l = [] ↔ l = [] := by
  cases l with
  | nil => simp [ewmUnexpErrs]
  | cons a rest => simp [ewmUnexpErrs]

theorem ewmExpErrs_mem (l : List MockRequestM) (e : MockRequestM)
    (he : e ∈ l) (hne : checkExpectations e ≠ []) :
    GoError.str (expectingLine e) ∈ ewmExpErrs l := by
  induction l with
  | nil => cases he
  | cons rq rest ih =>
    unfold ewmExpErrs
    dsimp only []
    rcases List.mem_cons.mp he with rfl | he'
    · have h : (checkExpectations e).length > 0 := by
        cases hck : checkExpectations e with
        | nil => exact absurd hck hne
        | cons a b => simp [hck]
      rw [if_pos h]
      exact List.mem_append_left _ (List.mem_cons_self _ _)
    · exact List.mem_append_right _ (ih he')

theorem ewmUnexpErrs_mem (base : Nat) (l : List Request) :
    ∀ (i j : Nat) (rq : Request), l.get? j = some rq →
      GoError.str (unexpectedLine base (i + j) rq) ∈ ewmUnexpErrs base i l := by
  induction l with
  | nil =>
    intro i j rq h
    simp at h
  | cons a rest ih =>
    intro i j rq h
    cases j with
    | zero =>
      have ha : a = rq := by simpa using h
      subst ha
      unfold ewmUnexpErrs
      exact List.mem_cons_self _ _
    | succ n =>
      unfold ewmUnexpErrs
      have hmem := ih (i + 1) n rq (by simpa using h)
      have harith : i + 1 + n = i + (n + 1) := by omega
      rw [harith] at hmem
      exact List.mem_cons_of_mem _ hmem

/-! Claim theorems. -/

/-- Claim C7: whenever a request reaches `mockClient.Do` with no
expectations configured (cursor sentinel), with the cursor past the last
expectation, or with the expectation at the cursor marked not-expected,
exactly one entry for the request is appended to the unexpected list and
`Do` returns `ErrUnexpectedRequest` with no response. -/
theorem mockDo_unexpected_recorded_once (m : MockM) (rq : Request)
    (h : m.next = noExpectedRequests ∨ (m.expectations.length : Int) ≤ m.next ∨
      (0 ≤ m.next ∧ ∃ e, m.expectations.get? m.next.toNat = some e ∧
        e.isExpected = false)) :
    (mockDo m rq).1.1 = none ∧
    (mockDo m rq).1.2 = some (.sentinel .unexpectedRequest) ∧
    (mockDo m rq).2.unexpected = m.unexpected ++ [rq] := by
  unfold mockDo
  rcases h with h | h | ⟨hnn, e, hget, hexp⟩
  · rw [if_neg (fun hc => hc.1 h)]
    exact ⟨rfl, rfl, rfl⟩
  · rw [if_neg (fun hc => absurd hc.2 (not_lt.mpr h))]
    exact ⟨rfl, rfl, rfl⟩
  · have hne : m.next ≠ noExpectedRequests := by
      unfold noExpectedRequests
      omega
    have hlen : m.next.toNat < m.expectations.length := List.get?_eq_some.mp hget |>.1
    have hlt : m.next < (m.expectations.length : Int) := by
      have hcast : (m.next.toNat : Int) = m.next := Int.toNat_of_nonneg hnn
      omega
    rw [if_pos ⟨hne, hlt⟩]
    dsimp only []
    have hgd : m.expectations.getD m.next.toNat default = e := by
      rw [List.getD_eq_getElem?_getD, ← List.get?_eq_getElem?, hget]
      rfl
    rw [hgd]
    rw [if_neg (by simp [hexp])]
    exact ⟨rfl, rfl, rfl⟩

/-- Witness for C7 at a concrete zero-expectation mock. -/
theorem mockDo_unexpected_recorded_once_witness :
    (mockDo wMockEmpty wMockRq).1.1 = none ∧
    (mockDo wMockEmpty wMockRq).1.2 = some (.sentinel .unexpectedRequest) ∧
    (mockDo wMockEmpty wMockRq).2.unexpected = wMockEmpty.unexpected ++ [wMockRq] :=
  mockDo_unexpected_recorded_once wMockEmpty wMockRq (Or.inl rfl)

/-- Claim C8: `ExpectationsWereMet` returns nil exactly when every
expectation passes its check and the unexpected list is empty; otherwise
it returns one `MockExpectationsError` whose error list contains the
headline for every failing expectation (ordinal, method, url) and a line
for every unexpected request. -/
theorem expectationsWereMet_complete (m : MockM) :
    (expectationsWereMet m = none ↔
      ((∀ e ∈ m.expectations, checkExpectations e = []) ∧ m.unexpected = [])) ∧
    (∀ err, expectationsWereMet m = some err →
      ∃ errs, err = .mockExpectations m.name errs ∧
        (∀ e ∈ m.expectations, checkExpectations e ≠ [] →
          GoError.str (expectingLine e) ∈ errs) ∧
        (∀ ix rq, m.unexpected.get? ix = some rq →
          GoError.str (unexpectedLine m.expectations.length ix rq) ∈ errs)) := by
  unfold expectationsWereMet
  dsimp only []
  by_cases h : (ewmExpErrs m.expectations
      ++ ewmUnexpErrs m.expectations.length 0 m.unexpected).length > 0
  · rw [if_pos h]
    constructor
    · constructor
      · intro hc
        cases hc
      · intro ⟨hall, hun⟩
        exfalso
        have h1 : ewmExpErrs m.expectations = [] := (ewmExpErrs_nil_iff _).mpr hall
        have h2 : ewmUnexpErrs m.expectations.length 0 m.unexpected = [] := by
          rw [hun]
          rfl
        rw [h1, h2] at h
        simp at h
    · intro err herr
      refine ⟨_, (Option.some.injEq _ _ ▸ herr).symm, ?_, ?_⟩
      · intro e he hne
        exact List.mem_append_left _ (ewmExpErrs_mem m.expectations e he hne)
      · intro ix rq hget
        have := ewmUnexpErrs_mem m.expectations.length m.unexpected 0 ix rq hget
        rw [Nat.zero_add] at this
        exact List.mem_append_right _ this
  · rw [if_neg h]
    have hnil : ewmExpErrs m.expectations
        ++ ewmUnexpErrs m.expectations.length 0 m.unexpected = [] := by
      cases hc : ewmExpErrs m.expectations
          ++ ewmUnexpErrs m.expectations.length 0 m.unexpected with
      | nil => rfl
      | cons a b =>
        rw [hc] at h
        simp at h
    rcases List.append_eq_nil.mp hnil with ⟨h1, h2⟩
    constructor
    · constructor
      · intro _
        exact ⟨(ewmExpErrs_nil_iff _).mp h1, (ewmUnexpErrs_nil_iff _ _ _).mp h2⟩
      · intro _
        rfl
    · intro err herr
      cases herr

/-- Witness for C8 at a concrete mock with one failing expectation and
one unexpected request. -/
theorem expectationsWereMet_complete_witness :
    ∃ err, expectationsWereMet wMockFailing = some err ∧
      ∃ errs, err = .mockExpectations wMockFailing.name errs ∧
        GoError.str (expectingLine wFailingExpectation) ∈ errs ∧
        GoError.str (unexpectedLine 1 0 wMockRq) ∈ errs := by
  cases hewm : expectationsWereMet wMockFailing with
  | none =>
    exfalso
    have hiff := (expectationsWereMet_complete wMockFailing).1.mp hewm
    have := hiff.2
    simp [wMockFailing] at this
  | some err =>
    rcases (expectationsWereMet_complete wMockFailing).2 err hewm
      with ⟨errs, herrs, hexp, hunexp⟩
    refine ⟨err, rfl, errs, herrs, ?_, ?_⟩
    · refine hexp wFailingExpectation (by simp [wMockFailing]) (by decide)
    · exact hunexp 0 wMockRq rfl

/-- Claim C3 (code bug evaluation): a mock client with zero expectations
configured that has already dispatched a request through `Do` leaves the
cursor at the no-expectations sentinel, so a subsequent `Expect` call
returns a new expectation normally instead of panicking with
`ErrCannotChangeExpectations` as its documentation requires. -/
theorem expect_after_request_with_zero_expectations_succeeds :
    (mockDo wMockEmpty wMockRq).1.2 = some (.sentinel .unexpectedRequest) ∧
    (mockDo wMockEmpty wMockRq).2.unexpected = [wMockRq] ∧
    (mockDo wMockEmpty wMockRq).2.next = -1 ∧
    ∃ result, mockExpect (mockDo wMockEmpty wMockRq).2 "GET" "/x" = .ok result :=
  ⟨rfl, rfl, rfl, ⟨_, rfl⟩⟩

/-- Claim C1: with an effective max-retries value of N ≥ 1 (from the
max-retries directive header, or the client default when that header is
absent) and a transport that fails on every attempt, `Do` submits the
request exactly N+1 times and the returned error wraps both
`ErrMaxRetriesExceeded` and the last transport error. -/
theorem retries_exhausted_attempts_and_wrapping
    (c : ClientS) (t : Transport) (es : Nat → GoError) (rq : Request) (N : Nat)
    (hN : 1 ≤ N)
    (hmr : (hGet rq.headers MaxRetriesHeader = none ∧ c.maxRetries = N) ∨
      (∃ s rest i, hGet rq.headers MaxRetriesHeader = some (s :: rest) ∧
        atoi s = .ok i ∧ uintOfInt i = N))
    (hok : (parseRequestHeaders c rq).1.2 = none)
    (hfail : ∀ r k, t r k = .error (es k)) :
    (clientDo c t rq).2.2.length = N + 1 ∧
    ∃ e : GoError, (clientDo c t rq).1.2 = some e ∧
      ErrWraps e (.sentinel .maxRetriesExceeded) ∧ ErrWraps e (es N) := by
  have hmrv : ((parseRequestHeaders c rq).1.1).maxRetries = N := by
    rw [parseRequestHeaders_eq]
    dsimp only []
    unfold parseValOf
    rcases hmr with ⟨hnone, hcm⟩ | ⟨s, rest, i, hs, hi, hu⟩
    · rw [hnone]
      exact hcm
    · rw [hs]
      dsimp only []
      unfold parseMaxRetriesValue
      rw [hi]
      dsimp only [Except.map, Except.toOption]
      exact hu
  have hNne : N ≠ 0 := by omega
  unfold clientDo
  dsimp only []
  rw [hok]
  dsimp only []
  rw [hmrv]
  rw [doAux_all_fail t es (parseRequestHeaders c rq).2 N
    ((parseRequestHeaders c rq).1.1).acceptableStatusCodes hNne hfail N 0]
  dsimp only []
  constructor
  · exact List.length_replicate (N + 1) _
  · refine ⟨handleErr c (parseRequestHeaders c rq).2
      (.wrap "" [.sentinel .maxRetriesExceeded, es (0 + N)]), rfl, ?_, ?_⟩
    · refine ErrWraps.wrapStep _ _ _ _ (List.mem_cons_self _ _) ?_
      exact ErrWraps.wrapStep _ _ _ _ (List.mem_cons_self _ _) (ErrWraps.refl _)
    · refine ErrWraps.wrapStep _ _ _ _ (List.mem_cons_self _ _) ?_
      rw [Nat.zero_add]
      refine ErrWraps.wrapStep _ _ _ _ ?_ (ErrWraps.refl _)
      exact List.mem_cons_of_mem _ (List.mem_cons_self _ _)

/-- Witness for C1: max-retries header "2", always-failing transport:
3 submissions and an error wrapping both kinds. -/
theorem retries_exhausted_attempts_and_wrapping_witness :
    (clientDo wClient wFailTransport wRetryRq).2.2.length = 2 + 1 ∧
    ∃ e : GoError, (clientDo wClient wFailTransport wRetryRq).1.2 = some e ∧
      ErrWraps e (.sentinel .maxRetriesExceeded) ∧ ErrWraps e (wFailSeq 2) :=
  retries_exhausted_attempts_and_wrapping wClient wFailTransport wFailSeq wRetryRq 2
    (by decide)
    (Or.inr ⟨"2", [], 2, rfl, rfl, rfl⟩)
    rfl
    (fun _ _ => rfl)

/-- Claim C2: applying `AcceptStatus 404` then `AcceptStatus 401` to a
request with no prior accept-status header accumulates (never replaces)
the codes, and the engine's directive parse yields exactly the set
{200, 401, 404}, the default 200 surviving both applications and the
re-parse. -/
theorem acceptStatus_twice_accumulates (c : ClientS) (rq : Request)
    (h : hGet rq.headers AcceptStatusHeader = none) :
    ∃ rq1 rq2,
      AcceptStatus [404] rq = .ok rq1 ∧
      AcceptStatus [401] rq1 = .ok rq2 ∧
      ((parseRequestHeaders c rq2).1.1).acceptableStatusCodes = [200, 404, 401] ∧
      (∀ n : Nat, n ∈ ((parseRequestHeaders c rq2).1.1).acceptableStatusCodes ↔
        (n = 200 ∨ n = 401 ∨ n = 404)) := by
  refine ⟨setHeader rq AcceptStatusHeader [encodeIntList [200, 404]],
    setHeader (setHeader rq AcceptStatusHeader [encodeIntList [200, 404]])
      AcceptStatusHeader [encodeIntList [200, 404, 401]], ?_, ?_, ?_, ?_⟩
  · unfold AcceptStatus
    rw [h]
    rfl
  · unfold AcceptStatus
    have hg : hGet (setHeader rq AcceptStatusHeader
        [encodeIntList [200, 404]]).headers AcceptStatusHeader
        = some [encodeIntList [200, 404]] := hGet_hSet_self _ _ _
    rw [hg]
    dsimp only []
    have hdec : decodeIntList (encodeIntList [200, 404]) = .ok [200, 404] := rfl
    rw [hdec]
    rfl
  · rw [parseRequestHeaders_eq]
    dsimp only []
    unfold parseValOf
    have hg : hGet (setHeader (setHeader rq AcceptStatusHeader
        [encodeIntList [200, 404]]) AcceptStatusHeader
        [encodeIntList [200, 404, 401]]).headers AcceptStatusHeader
        = some [encodeIntList [200, 404, 401]] := hGet_hSet_self _ _ _
    rw [hg]
    dsimp only []
    have hdec : parseAcceptValue (encodeIntList [200, 404, 401])
        = .ok [200, 404, 401] := rfl
    rw [hdec]
    rfl
  · rw [parseRequestHeaders_eq]
    dsimp only []
    unfold parseValOf
    have hg : hGet (setHeader (setHeader rq AcceptStatusHeader
        [encodeIntList [200, 404]]) AcceptStatusHeader
        [encodeIntList [200, 404, 401]]).headers AcceptStatusHeader
        = some [encodeIntList [200, 404, 401]] := hGet_hSet_self _ _ _
    rw [hg]
    dsimp only []
    have hdec : parseAcceptValue (encodeIntList [200, 404, 401])
        = .ok [200, 404, 401] := rfl
    rw [hdec]
    intro n
    simp only [Except.toOption, Option.getD, List.mem_cons, List.not_mem_nil,
      or_false]
    tauto

/-- Witness for C2 at a concrete request with no directive headers. -/
theorem acceptStatus_twice_accumulates_witness :
    ∃ rq1 rq2,
      AcceptStatus [404] wPlainRq = .ok rq1 ∧
      AcceptStatus [401] rq1 = .ok rq2 ∧
      ((parseRequestHeaders wClient rq2).1.1).acceptableStatusCodes = [200, 404, 401] ∧
      (∀ n : Nat, n ∈ ((parseRequestHeaders wClient rq2).1.1).acceptableStatusCodes ↔
        (n = 200 ∨ n = 401 ∨ n = 404)) :=
  acceptStatus_twice_accumulates wClient wPlainRq rfl

/-- Claim C4: with the stream-response directive set and a transport
success with an acceptable status, `Do` returns the transport's response
unmodified with no error — the body is not read or replaced, its content
length is the transport's value, and the body-required check is never
applied (no hypothesis on the body-required directive). -/
theorem streaming_returns_response_unmodified (c : ClientS) (t : Transport)
    (rq : Request) (r : Response)
    (hok : (parseRequestHeaders c rq).1.2 = none)
    (hstream : ((parseRequestHeaders c rq).1.1).streamResponse = true)
    (ht : t (parseRequestHeaders c rq).2 0 = .ok r)
    (hacc : ((parseRequestHeaders c rq).1.1).acceptableStatusCodes.contains
      (uintOfInt r.statusCode) = true) :
    (clientDo c t rq).1 = (some r, none) := by
  unfold clientDo
  dsimp only []
  rw [hok]
  dsimp only []
  rw [doAux_first_ok _ _ _ _ _ r ht hacc]
  dsimp only []
  rw [if_pos hstream]

/-- Witness for C4: stream and body-required both set, 200 response with
a non-empty unread body; `Do` passes it through untouched. -/
theorem streaming_returns_response_unmodified_witness :
    (clientDo wClient wOkTransport wStreamRq).1 = (some wOkResponse, none) :=
  streaming_returns_response_unmodified wClient wOkTransport wStreamRq wOkResponse
    rfl rfl rfl rfl

/-- Claim C5: for a non-streaming request whose transport returns an
acceptable status and a non-empty body B, `Do` returns no error and a
response whose content length equals B's length and whose body reads
back exactly B. -/
theorem materialized_body_roundtrip (c : ClientS) (t : Transport)
    (rq : Request) (r : Response) (data : List Nat)
    (hok : (parseRequestHeaders c rq).1.2 = none)
    (hstream : ((parseRequestHeaders c rq).1.1).streamResponse = false)
    (ht : t (parseRequestHeaders c rq).2 0 = .ok r)
    (hacc : ((parseRequestHeaders c rq).1.1).acceptableStatusCodes.contains
      (uintOfInt r.statusCode) = true)
    (hread : readAll r.body = .ok data)
    (hne : data ≠ []) :
    (clientDo c t rq).1.2 = none ∧
    ∃ r', (clientDo c t rq).1.1 = some r' ∧
      r'.contentLength = (data.length : Int) ∧ readAll r'.body = .ok data := by
  unfold clientDo
  dsimp only []
  rw [hok]
  dsimp only []
  rw [doAux_first_ok _ _ _ _ _ r ht hacc]
  dsimp only []
  rw [if_neg (by rw [hstream]; exact Bool.false_ne_true), hread]
  dsimp only []
  have hlen : ¬ data.length = 0 := by
    intro hc
    exact hne (List.length_eq_zero.mp hc)
  rw [if_neg (fun hc => hlen hc.1), if_neg hlen]
  exact ⟨rfl, ⟨_, rfl, rfl, rfl⟩⟩

/-- Witness for C5 at a transport returning body bytes [104, 105]. -/
theorem materialized_body_roundtrip_witness :
    (clientDo wClient wOkTransport wPlainRq).1.2 = none ∧
    ∃ r', (clientDo wClient wOkTransport wPlainRq).1.1 = some r' ∧
      r'.contentLength = (([104, 105] : List Nat).length : Int) ∧
      readAll r'.body = .ok [104, 105] :=
  materialized_body_roundtrip wClient wOkTransport wPlainRq wOkResponse [104, 105]
    rfl rfl rfl rfl rfl (by decide)

/-- Claim C9: for a non-streaming request without the body-required
directive, an acceptable response whose body reads as empty comes back
with no error, content length 0 and the canonical `http.NoBody` sentinel
as body. -/
theorem empty_body_noBody_sentinel (c : ClientS) (t : Transport)
    (rq : Request) (r : Response)
    (hok : (parseRequestHeaders c rq).1.2 = none)
    (hstream : ((parseRequestHeaders c rq).1.1).streamResponse = false)
    (hbr : ((parseRequestHeaders c rq).1.1).responseBodyRequired = false)
    (ht : t (parseRequestHeaders c rq).2 0 = .ok r)
    (hacc : ((parseRequestHeaders c rq).1.1).acceptableStatusCodes.contains
      (uintOfInt r.statusCode) = true)
    (hread : readAll r.body = .ok []) :
    (clientDo c t rq).1 =
      (some { r with contentLength := 0, body := .noBody }, none) := by
  unfold clientDo
  dsimp only []
  rw [hok]
  dsimp only []
  rw [doAux_first_ok _ _ _ _ _ r ht hacc]
  dsimp only []
  rw [if_neg (by rw [hstream]; exact Bool.false_ne_true), hread]
  dsimp only []
  rw [if_neg (fun hc => by rw [hbr] at hc; exact Bool.false_ne_true hc.2),
    if_pos (show ([] : List Nat).length = 0 from rfl)]

/-- Witness for C9 at a transport returning `http.NoBody`. -/
theorem empty_body_noBody_sentinel_witness :
    (clientDo wClient wEmptyTransport wPlainRq).1 =
      (some { wEmptyBodyResponse with contentLength := 0, body := .noBody },
        none) :=
  empty_body_noBody_sentinel wClient wEmptyTransport wPlainRq wEmptyBodyResponse
    rfl rfl rfl rfl rfl rfl

/-- Claim C6: for every request, all four reserved directive headers are
absent from the request `Do` leaves behind, and from the request as
submitted to the transport on every attempt, regardless of parse outcome
or transport behaviour. -/
theorem reserved_headers_always_stripped (c : ClientS) (t : Transport)
    (rq : Request) :
    (∀ k ∈ reservedHeaders, hGet ((clientDo c t rq).2.1).headers k = none) ∧
    (∀ r ∈ (clientDo c t rq).2.2, ∀ k ∈ reservedHeaders,
      hGet r.headers k = none) := by
  have hstrip : ∀ k ∈ reservedHeaders,
      hGet ((parseRequestHeaders c rq).2).headers k = none := by
    intro k hk
    rw [parseRequestHeaders_eq]
    exact hGet_stripAll_reserved rq.headers k hk
  constructor
  · intro k hk
    rw [clientDo_rq]
    exact hstrip k hk
  · intro r hr k hk
    rw [clientDo_log_mem c t rq r hr]
    exact hstrip k hk

/-- Witness for C6 on a concrete retried request: the max-retries header
is gone from the final request and from the first submitted request. -/
theorem reserved_headers_always_stripped_witness :
    hGet ((clientDo wClient wFailTransport wRetryRq).2.1).headers
      MaxRetriesHeader = none ∧
    ∀ r ∈ (clientDo wClient wFailTransport wRetryRq).2.2,
      hGet r.headers MaxRetriesHeader = none := by
  constructor
  · exact (reserved_headers_always_stripped wClient wFailTransport wRetryRq).1
      MaxRetriesHeader (by decide)
  · intro r hr
    exact (reserved_headers_always_stripped wClient wFailTransport wRetryRq).2
      r hr MaxRetriesHeader (by decide)

/-- `parseRequestHeaders` only looks at a request through its method,
url, body, the per-key parse views, and the stripped header map. -/
theorem parseRequestHeaders_congr (c : ClientS) (rq1 rq2 : Request)
    (hme : rq1.method = rq2.method) (hu : rq1.url = rq2.url)
    (hb : rq1.body = rq2.body)
    (hMRv : parseValOf rq1.headers MaxRetriesHeader parseMaxRetriesValue
      = parseValOf rq2.headers MaxRetriesHeader parseMaxRetriesValue)
    (hMRe : parseErrOf rq1.headers MaxRetriesHeader parseMaxRetriesValue
      = parseErrOf rq2.headers MaxRetriesHeader parseMaxRetriesValue)
    (hASv : parseValOf rq1.headers AcceptStatusHeader parseAcceptValue
      = parseValOf rq2.headers AcceptStatusHeader parseAcceptValue)
    (hASe : parseErrOf rq1.headers AcceptStatusHeader parseAcceptValue
      = parseErrOf rq2.headers AcceptStatusHeader parseAcceptValue)
    (hBRv : parseValOf rq1.headers ResponseBodyRequiredHeader parseBoolValue
      = parseValOf rq2.headers ResponseBodyRequiredHeader parseBoolValue)
    (hBRe : parseErrOf rq1.headers ResponseBodyRequiredHeader parseBoolValue
      = parseErrOf rq2.headers ResponseBodyRequiredHeader parseBoolValue)
    (hSRv : parseValOf rq1.headers StreamResponseHeader parseBoolValue
      = parseValOf rq2.headers StreamResponseHeader parseBoolValue)
    (hSRe : parseErrOf rq1.headers StreamResponseHeader parseBoolValue
      = parseErrOf rq2.headers StreamResponseHeader parseBoolValue)
    (hstrip : stripAll rq1.headers = stripAll rq2.headers) :
    parseRequestHeaders c rq1 = parseRequestHeaders c rq2 := by
  rw [parseRequestHeaders_eq, parseRequestHeaders_eq,
    hMRv, hMRe, hASv, hASe, hBRv, hBRe, hSRv, hSRe, hstrip, hme, hu, hb]

/-- Claim C10: a reserved directive header carrying several values parses
through its first value only — the extra values change nothing — and the
whole header (all values) is removed. -/
theorem reserved_header_extra_values_ignored (c : ClientS) (rq : Request)
    (k : String) (v : String) (vs : List String) (hk : k ∈ reservedHeaders) :
    parseRequestHeaders c (setHeader rq k (v :: vs)) =
      parseRequestHeaders c (setHeader rq k [v]) ∧
    hGet ((parseRequestHeaders c (setHeader rq k (v :: vs))).2).headers k
      = none := by
  constructor
  · refine parseRequestHeaders_congr c _ _ rfl rfl rfl ?_ ?_ ?_ ?_ ?_ ?_ ?_ ?_ ?_
    all_goals dsimp only [setHeader]
    all_goals
      rcases (mem_reservedHeaders_iff k).mp hk with rfl | rfl | rfl | rfl
    case _ => rw [parseValOf_hSet_head, parseValOf_hSet_head]
    case _ => rw [parseValOf_hSet_other _ _ _ _ _ (by decide),
      parseValOf_hSet_other _ _ _ _ _ (by decide)]
    case _ => rw [parseValOf_hSet_other _ _ _ _ _ (by decide),
      parseValOf_hSet_other _ _ _ _ _ (by decide)]
    case _ => rw [parseValOf_hSet_other _ _ _ _ _ (by decide),
      parseValOf_hSet_other _ _ _ _ _ (by decide)]
    case _ => rw [parseErrOf_hSet_head, parseErrOf_hSet_head]
    case _ => rw [parseErrOf_hSet_other _ _ _ _ _ (by decide),
      parseErrOf_hSet_other _ _ _ _ _ (by decide)]
    case _ => rw [parseErrOf_hSet_other _ _ _ _ _ (by decide),
      parseErrOf_hSet_other _ _ _ _ _ (by decide)]
    case _ => rw [parseErrOf_hSet_other _ _ _ _ _ (by decide),
      parseErrOf_hSet_other _ _ _ _ _ (by decide)]
    case _ => rw [parseValOf_hSet_other _ _ _ _ _ (by decide),
      parseValOf_hSet_other _ _ _ _ _ (by decide)]
    case _ => rw [parseValOf_hSet_head, parseValOf_hSet_head]
    case _ => rw [parseValOf_hSet_other _ _ _ _ _ (by decide),
      parseValOf_hSet_other _ _ _ _ _ (by decide)]
    case _ => rw [parseValOf_hSet_other _ _ _ _ _ (by decide),
      parseValOf_hSet_other _ _ _ _ _ (by decide)]
    case _ => rw [parseErrOf_hSet_other _ _ _ _ _ (by decide),
      parseErrOf_hSet_other _ _ _ _ _ (by decide)]
    case _ => rw [parseErrOf_hSet_head, parseErrOf_hSet_head]
    case _ => rw [parseErrOf_hSet_other _ _ _ _ _ (by decide),
      parseErrOf_hSet_other _ _ _ _ _ (by decide)]
    case _ => rw [parseErrOf_hSet_other _ _ _ _ _ (by decide),
      parseErrOf_hSet_other _ _ _ _ _ (by decide)]
    case _ => rw [parseValOf_hSet_other _ _ _ _ _ (by decide),
      parseValOf_hSet_other _ _ _ _ _ (by decide)]
    case _ => rw [parseValOf_hSet_other _ _ _ _ _ (by decide),
      parseValOf_hSet_other _ _ _ _ _ (by decide)]
    case _ => rw [parseValOf_hSet_head, parseValOf_hSet_head]
    case _ => rw [parseValOf_hSet_other _ _ _ _ _ (by decide),
      parseValOf_hSet_other _ _ _ _ _ (by decide)]
    case _ => rw [parseErrOf_hSet_other _ _ _ _ _ (by decide),
      parseErrOf_hSet_other _ _ _ _ _ (by decide)]
    case _ => rw [parseErrOf_hSet_other _ _ _ _ _ (by decide),
      parseErrOf_hSet_other _ _ _ _ _ (by decide)]
    case _ => rw [parseErrOf_hSet_head, parseErrOf_hSet_head]
    case _ => rw [parseErrOf_hSet_other _ _ _ _ _ (by decide),
      parseErrOf_hSet_other _ _ _ _ _ (by decide)]
    case _ => rw [parseValOf_hSet_other _ _ _ _ _ (by decide),
      parseValOf_hSet_other _ _ _ _ _ (by decide)]
    case _ => rw [parseValOf_hSet_other _ _ _ _ _ (by decide),
      parseValOf_hSet_other _ _ _ _ _ (by decide)]
    case _ => rw [parseValOf_hSet_other _ _ _ _ _ (by decide),
      parseValOf_hSet_other _ _ _ _ _ (by decide)]
    case _ => rw [parseValOf_hSet_head, parseValOf_hSet_head]
    case _ => rw [parseErrOf_hSet_other _ _ _ _ _ (by decide),
      parseErrOf_hSet_other _ _ _ _ _ (by decide)]
    case _ => rw [parseErrOf_hSet_other _ _ _ _ _ (by decide),
      parseErrOf_hSet_other _ _ _ _ _ (by decide)]
    case _ => rw [parseErrOf_hSet_other _ _ _ _ _ (by decide),
      parseErrOf_hSet_other _ _ _ _ _ (by decide)]
    case _ => rw [parseErrOf_hSet_head, parseErrOf_hSet_head]
    case _ => rw [stripAll_hSet _ _ _ hk, stripAll_hSet _ _ _ hk]
    case _ => rw [stripAll_hSet _ _ _ hk, stripAll_hSet _ _ _ hk]
    case _ => rw [stripAll_hSet _ _ _ hk, stripAll_hSet _ _ _ hk]
    case _ => rw [stripAll_hSet _ _ _ hk, stripAll_hSet _ _ _ hk]
  · rw [parseRequestHeaders_eq]
    exact hGet_stripAll_reserved _ _ hk

/-- Witness for C10: an accept-status header with a second junk value
parses identically to the single-value header, and is fully removed. -/
theorem reserved_header_extra_values_ignored_witness :
    parseRequestHeaders wClient
        (setHeader wPlainRq AcceptStatusHeader ("[404]" :: ["junk"])) =
      parseRequestHeaders wClient (setHeader wPlainRq AcceptStatusHeader ["[404]"]) ∧
    hGet ((parseRequestHeaders wClient
        (setHeader wPlainRq AcceptStatusHeader ("[404]" :: ["junk"]))).2).headers
      AcceptStatusHeader = none :=
  reserved_header_extra_values_ignored wClient wPlainRq AcceptStatusHeader
    "[404]" ["junk"] (by decide)

end BlugnuHttp
